import Mathlib

/-!
Verification of the agent-coordination core of `agent-coord-mcp`.

The coordination logic lives as TypeScript embedded in the patch scripts
`src/scripts/fix_mcp_to_http.py` (the MCP tool handlers: claims, locks,
zones, tasks, with remote-HTTP-then-local-store fallback) and
`src/scripts/fix_bigbrain_duplication.py` (the poll loop's message
deduplication window).  Those handlers are embedded here directly.  The
in-memory `CoordinationStore` (`store.claim`, `store.checkClaim`,
`store.releaseClaim`, `store.listClaims`, ...) and the remote HTTP backend
are not part of the shown sources; where a property depends on them they
are modelled from the specification, and each such definition says so in
its doc comment.
-/

/- ===================== DedupWindow (fix_bigbrain_duplication.py) ========
The poll loop keeps `const processedMessageIds = new Set<string>()`.
A JavaScript `Set` iterates in insertion order, so it is embedded as a
duplicate-free list of ids in insertion order (oldest first). -/

/-- Capacity of the dedup window: the code keeps the last 100 ids
(`if (processedMessageIds.size > 100) ...`). -/
def dedupCapacity : Nat := 100

/-- `processedMessageIds.add(id)`: a JS `Set.add` is a no-op on an already
present element, otherwise appends at the end of the insertion order. -/
def setAdd (w : List String) (id : String) : List String :=
  if id ∈ w then w else w ++ [id]

/-- `unprocessedMessages.forEach(m => processedMessageIds.add(m.id))`:
mark a batch of ids, in batch order. -/
def markBatch (w : List String) (ids : List String) : List String :=
  ids.foldl setAdd w

/-- The trimming step of the poll loop:
`if (size > 100) { const toDelete = Array.from(set).slice(0, size - 100);
toDelete.forEach(id => set.delete(id)); }`.
`Array.from` of a JS `Set` lists elements in insertion order, so
`slice(0, size - 100)` is the oldest `size - 100` ids. -/
def trimWindow (w : List String) : List String :=
  if w.length > dedupCapacity then
    let toDelete := w.take (w.length - dedupCapacity)
    w.filter (fun x => ¬ x ∈ toDelete)
  else w

/-- `setAdd` preserves freedom from duplicates. -/
theorem setAdd_nodup {w : List String} (h : w.Nodup) (id : String) :
    (setAdd w id).Nodup := by
  unfold setAdd
  split
  · exact h
  · simpa [List.nodup_append] using ⟨h, by assumption⟩

/-- `markBatch` preserves freedom from duplicates. -/
theorem markBatch_nodup {w : List String} (h : w.Nodup) (ids : List String) :
    (markBatch w ids).Nodup := by
  induction ids generalizing w with
  | nil => exact h
  | cons a as ih => exact ih (setAdd_nodup h a)

/-- Deleting the first `k` elements of a duplicate-free list by membership
filtering is the same as dropping them. -/
theorem filter_not_mem_take {w : List String} (h : w.Nodup) (k : Nat) :
    w.filter (fun x => ¬ x ∈ w.take k) = w.drop k := by
  set t := w.take k with ht
  set d := w.drop k with hd
  have hsplit : w = t ++ d := by rw [ht, hd, List.take_append_drop]
  have hdisj : List.Disjoint t d := by
    have hn := h
    rw [hsplit] at hn
    exact (List.nodup_append.mp hn).2.2
  rw [hsplit, List.filter_append]
  have h1 : t.filter (fun x => decide (¬ x ∈ t)) = [] := by
    apply List.filter_eq_nil_iff.mpr
    intro a ha
    simp [ha]
  have h2 : d.filter (fun x => decide (¬ x ∈ t)) = d := by
    apply List.filter_eq_self.mpr
    intro a ha
    simp only [decide_eq_true_eq]
    intro hmem
    exact hdisj hmem ha
  rw [h1, h2, List.nil_append]

/-- On a duplicate-free window, trimming just drops the oldest
`size - capacity` elements. -/
theorem trimWindow_eq_drop {w : List String} (h : w.Nodup)
    (hlen : w.length > dedupCapacity) :
    trimWindow w = w.drop (w.length - dedupCapacity) := by
  unfold trimWindow
  rw [if_pos hlen]
  exact filter_not_mem_take h _

/-- Length after trimming: at most the capacity. -/
theorem trimWindow_length_le {w : List String} (h : w.Nodup) :
    (trimWindow w).length ≤ dedupCapacity := by
  by_cases hlen : w.length > dedupCapacity
  · rw [trimWindow_eq_drop h hlen, List.length_drop]
    omega
  · unfold trimWindow
    rw [if_neg hlen]
    omega

/-- Trimming preserves freedom from duplicates. -/
theorem trimWindow_nodup {w : List String} (h : w.Nodup) :
    (trimWindow w).Nodup := by
  unfold trimWindow
  split
  · exact List.Nodup.filter _ h
  · exact h

/-- Marking an id already in the window leaves the window unchanged. -/
theorem setAdd_mem_eq {w : List String} {id : String} (h : id ∈ w) :
    setAdd w id = w := by
  unfold setAdd
  rw [if_pos h]

/-- Marking an id not in the window appends it. -/
theorem setAdd_not_mem_eq {w : List String} {id : String} (h : ¬ id ∈ w) :
    setAdd w id = w ++ [id] := by
  unfold setAdd
  rw [if_neg h]

/-- A message whose id is in the poll loop's fetched batch.  The fields are
the ones the loop reads (`m.id`, `m.timestamp`, `m.author`, `m.message`,
`m.authorType`). -/
structure Msg where
  id : String
  author : String
  message : String
  authorType : String
  timestamp : String
  deriving Repr, DecidableEq

/-- `newMessages.filter(m => !processedMessageIds.has(m.id))`: the batch
filtered against the window as it stands before any marking. -/
def unprocessed (w : List String) (batch : List Msg) : List Msg :=
  batch.filter (fun m => ¬ m.id ∈ w)

/-- The observable events of one poll iteration, used to state in which
order the iteration marks ids, hands messages to the context manager, and
produces a response. -/
inductive Event where
  | markSeen (id : String)
  | forwardToContext (id : String)
  | respond
  deriving Repr, DecidableEq

/-- Event trace of the body of `if (newMessages.length > 0) { ... }` in the
patched poll loop: filter the batch against the window; if nothing is left,
only advance the timestamp (no events); otherwise mark every unprocessed id
(`forEach(m => processedMessageIds.add(m.id))`), trim the window, forward
the unprocessed messages to the context manager, and finally respond if
`shouldRespond(unprocessedMessages)` says so.  `sr` is the oracle for
`shouldRespond`. -/
def iterationTrace (sr : List Msg → Bool) (w : List String) (batch : List Msg) :
    List Event :=
  if batch.isEmpty then []
  else if (unprocessed w batch).isEmpty then []
  else
    (unprocessed w batch).map (fun m => Event.markSeen m.id)
      ++ ((unprocessed w batch).map (fun m => Event.forwardToContext m.id)
        ++ (if sr (unprocessed w batch) then [Event.respond] else []))

/-- Mutable state of the poll loop that the duplication fix touches:
`processedMessageIds` and `lastProcessedTimestamp`. -/
structure AgentState where
  window : List String
  lastProcessedTimestamp : Option String
  deriving Repr, DecidableEq

/-- Result of one poll iteration: the updated loop state, the messages
handed to `contextManager.processMessages` (and to `checkForRenameCommand`
and the response context), and whether a response was produced. -/
structure IterResult where
  state : AgentState
  forwarded : List Msg
  responded : Bool
  deriving Repr, DecidableEq

/-- State-level embedding of one execution of
`if (newMessages.length > 0) { ... }` from the patched poll loop
(`fix_bigbrain_duplication.py`, `new_processing`): filter out already
processed messages; if none remain, advance `lastProcessedTimestamp` to the
last message's timestamp and `continue`; otherwise mark all unprocessed ids
before responding, trim the window to the last 100 ids, advance the
timestamp, forward only the unprocessed messages, and respond according to
`shouldRespond(unprocessedMessages)`. -/
def processIteration (sr : List Msg → Bool) (st : AgentState) (batch : List Msg) :
    IterResult :=
  if batch.isEmpty then { state := st, forwarded := [], responded := false }
  else if (unprocessed st.window batch).isEmpty then
    { state := { window := st.window
                 lastProcessedTimestamp := (batch.getLast?).map (fun m => m.timestamp) }
      forwarded := []
      responded := false }
  else
    { state :=
        { window := trimWindow (markBatch st.window
            ((unprocessed st.window batch).map (fun m => m.id)))
          lastProcessedTimestamp := (batch.getLast?).map (fun m => m.timestamp) }
      forwarded := unprocessed st.window batch
      responded := sr (unprocessed st.window batch) }

/-- C7: the dedup window holds at most 100 ids after each batch and stays
duplicate-free; when the insertions exceed the capacity, exactly the oldest
`size - 100` ids in insertion order are evicted; inserting a 101st distinct
id evicts exactly the single oldest id, leaving exactly 100 entries, none
of which is the evicted one; marking an already-seen id leaves the window
size unchanged. -/
theorem C7_dedup_window_bounded (w : List String) (ids : List String)
    (h : w.Nodup) :
    (trimWindow (markBatch w ids)).length ≤ dedupCapacity
    ∧ (trimWindow (markBatch w ids)).Nodup
    ∧ ((markBatch w ids).length > dedupCapacity →
        trimWindow (markBatch w ids) =
          (markBatch w ids).drop ((markBatch w ids).length - dedupCapacity))
    ∧ (∀ id a tl, ¬ id ∈ w → w = a :: tl → w.length = dedupCapacity →
        trimWindow (markBatch w [id]) = tl ++ [id]
        ∧ (trimWindow (markBatch w [id])).length = dedupCapacity
        ∧ ¬ a ∈ trimWindow (markBatch w [id]))
    ∧ (∀ id, id ∈ w → (markBatch w [id]).length = w.length) := by
  have hmn : (markBatch w ids).Nodup := markBatch_nodup h ids
  refine ⟨trimWindow_length_le hmn, trimWindow_nodup hmn, ?_, ?_, ?_⟩
  · intro hgt
    exact trimWindow_eq_drop hmn hgt
  · intro id a tl hid hcons hlen
    subst hcons
    have hone : markBatch (a :: tl) [id] = (a :: tl) ++ [id] := by
      simp [markBatch, List.foldl, setAdd_not_mem_eq hid]
    have hlen' : (markBatch (a :: tl) [id]).length = dedupCapacity + 1 := by
      rw [hone, List.length_append]
      simpa using hlen
    have hnd : (markBatch (a :: tl) [id]).Nodup := markBatch_nodup h [id]
    have hdrop : trimWindow (markBatch (a :: tl) [id]) = tl ++ [id] := by
      rw [trimWindow_eq_drop hnd (by omega), hlen', hone]
      simp
    refine ⟨hdrop, ?_, ?_⟩
    · rw [hdrop, List.length_append]
      have : tl.length + 1 = dedupCapacity := by simpa using hlen
      simpa using this
    · rw [hdrop]
      intro hmem
      rcases List.mem_append.mp hmem with hmem | hmem
      · exact (List.nodup_cons.mp h).1 hmem
      · simp only [List.mem_singleton] at hmem
        exact hid (hmem ▸ List.mem_cons_self a tl)
  · intro id hid
    simp [markBatch, List.foldl, setAdd_mem_eq hid]

/-- Witness for C7 at a concrete window and batch. -/
theorem C7_dedup_window_bounded_witness :
    (trimWindow (markBatch ["m1"] ["m2"])).length ≤ dedupCapacity :=
  (C7_dedup_window_bounded ["m1"] ["m2"] (by decide)).1

/-- What a poll iteration forwards to the context/response pipeline is
exactly the batch filtered against the pre-iteration window. -/
theorem processIteration_forwarded (sr : List Msg → Bool) (st : AgentState)
    (batch : List Msg) :
    (processIteration sr st batch).forwarded = unprocessed st.window batch := by
  unfold processIteration
  by_cases hb : batch.isEmpty
  · rw [if_pos hb, List.isEmpty_iff.mp hb]
    simp [unprocessed]
  · rw [if_neg hb]
    by_cases hu : (unprocessed st.window batch).isEmpty
    · rw [if_pos hu]
      exact (List.isEmpty_iff.mp hu).symm
    · rw [if_neg hu]

/-- An id already in the window is never the subject of a forward event. -/
theorem forward_not_mem_trace {sr : List Msg → Bool} {w : List String}
    {batch : List Msg} {id : String} (hid : id ∈ w) :
    ¬ Event.forwardToContext id ∈ iterationTrace sr w batch := by
  unfold iterationTrace
  by_cases hb : batch.isEmpty
  · rw [if_pos hb]
    simp
  · rw [if_neg hb]
    by_cases hu : (unprocessed w batch).isEmpty
    · rw [if_pos hu]
      simp
    · rw [if_neg hu]
      intro hmem
      rcases List.mem_append.mp hmem with hmem | hmem
      · rcases List.mem_map.mp hmem with ⟨x, _, hx⟩
        exact Event.noConfusion hx
      · rcases List.mem_append.mp hmem with hmem | hmem
        · rcases List.mem_map.mp hmem with ⟨x, hxu, hx⟩
          have hxid : x.id = id := by injection hx
          have hflt := List.mem_filter.mp hxu
          simp only [decide_eq_true_eq] at hflt
          exact hflt.2 (hxid ▸ hid)
        · split at hmem <;> simp_all


/-- Every unseen message in the batch gets a mark event. -/
theorem mark_mem_trace {sr : List Msg → Bool} {w : List String}
    {batch : List Msg} {m : Msg} (hm : m ∈ batch) (hid : ¬ m.id ∈ w) :
    Event.markSeen m.id ∈ iterationTrace sr w batch := by
  have hmu : m ∈ unprocessed w batch := by
    unfold unprocessed
    exact List.mem_filter.mpr ⟨hm, by simpa using hid⟩
  have hbne : ¬ batch.isEmpty = true := by
    intro hb
    rw [List.isEmpty_iff.mp hb] at hm
    simp at hm
  have hune : ¬ (unprocessed w batch).isEmpty = true := by
    intro hu
    rw [List.isEmpty_iff.mp hu] at hmu
    simp at hmu
  unfold iterationTrace
  rw [if_neg hbne, if_neg hune]
  apply List.mem_append.mpr
  left
  exact List.mem_map.mpr ⟨m, hmu, rfl⟩

/-- If no element of the right part of an append satisfies `P`, an element
satisfying `P` sits in the left part. -/
theorem getElem_lt_of_not_in_right {α : Type} {P : α → Prop} {a b : List α}
    (hb : ∀ x ∈ b, ¬ P x) {i : Nat} (hi : i < (a ++ b).length)
    (h : P ((a ++ b).get ⟨i, hi⟩)) : i < a.length := by
  by_contra hge
  push_neg at hge
  have hlt : i < a.length + b.length := by simpa using hi
  have hib : i - a.length < b.length := by omega
  have heq : (a ++ b).get ⟨i, hi⟩ = b.get ⟨i - a.length, hib⟩ := by
    simp only [List.get_eq_getElem]
    exact List.getElem_append_right hge
  exact hb _ (List.get_mem b _ _) (heq ▸ h)

/-- If no element of the left part of an append satisfies `P`, an element
satisfying `P` sits in the right part. -/
theorem getElem_ge_of_not_in_left {α : Type} {P : α → Prop} {a b : List α}
    (ha : ∀ x ∈ a, ¬ P x) {i : Nat} (hi : i < (a ++ b).length)
    (h : P ((a ++ b).get ⟨i, hi⟩)) : a.length ≤ i := by
  by_contra hlt
  push_neg at hlt
  have heq : (a ++ b).get ⟨i, hi⟩ = a.get ⟨i, hlt⟩ := by
    simp only [List.get_eq_getElem]
    exact List.getElem_append_left hlt
  exact ha _ (List.get_mem a _ _) (heq ▸ h)

/-- In a trace of the form `marks ++ rest` where `rest` holds no mark
events and the marks segment holds neither forward nor respond events,
every mark index precedes every forward or respond index. -/
theorem marks_precede_aux {t A rest : List Event} (ht : t = A ++ rest)
    (hrest : ∀ e ∈ rest, ∀ id, e ≠ Event.markSeen id)
    (hA : ∀ e ∈ A, (∀ id, e ≠ Event.forwardToContext id) ∧ e ≠ Event.respond)
    {i j : Nat} (hi : i < t.length) (hj : j < t.length)
    (hmark : ∃ id, t.get ⟨i, hi⟩ = Event.markSeen id)
    (hact : (∃ id, t.get ⟨j, hj⟩ = Event.forwardToContext id)
        ∨ t.get ⟨j, hj⟩ = Event.respond) :
    i < j := by
  subst ht
  rcases hmark with ⟨id, hmark⟩
  have hlti : i < A.length := by
    refine getElem_lt_of_not_in_right (P := fun e => e = Event.markSeen id)
      ?_ hi hmark
    intro x hx hxe
    exact hrest x hx id hxe
  have hgej : A.length ≤ j := by
    refine getElem_ge_of_not_in_left
      (P := fun e => (∃ d, e = Event.forwardToContext d) ∨ e = Event.respond)
      ?_ hj hact
    intro x hx hxe
    rcases hxe with ⟨d, hd⟩ | hr
    · exact (hA x hx).1 d hd
    · exact (hA x hx).2 hr
  omega

/-- Shape of a poll iteration's trace: empty, or all mark events followed
by the forward events followed by an optional respond event. -/
theorem trace_shape (sr : List Msg → Bool) (w : List String) (batch : List Msg) :
    iterationTrace sr w batch = []
    ∨ iterationTrace sr w batch =
        (unprocessed w batch).map (fun m => Event.markSeen m.id)
        ++ ((unprocessed w batch).map (fun m => Event.forwardToContext m.id)
          ++ (if sr (unprocessed w batch) then [Event.respond] else [])) := by
  unfold iterationTrace
  by_cases hb : batch.isEmpty
  · left
    rw [if_pos hb]
  · rw [if_neg hb]
    by_cases hu : (unprocessed w batch).isEmpty
    · left
      rw [if_pos hu]
    · right
      rw [if_neg hu]

/-- C8: in every poll iteration, the messages forwarded to the
context/response pipeline are exactly the batch filtered against the dedup
window; a message whose id is already in the window is dropped (neither
forwarded in the result nor the subject of a forward event); every unseen
id is marked; and in the iteration's event trace every mark event strictly
precedes every forward and every respond event — marking happens before the
agent reacts, giving at-most-once reaction. -/
theorem C8_at_most_once_reaction (sr : List Msg → Bool) (st : AgentState)
    (batch : List Msg) :
    (processIteration sr st batch).forwarded = unprocessed st.window batch
    ∧ (∀ m ∈ batch, m.id ∈ st.window →
        ¬ m ∈ (processIteration sr st batch).forwarded
        ∧ ¬ Event.forwardToContext m.id ∈ iterationTrace sr st.window batch)
    ∧ (∀ m ∈ batch, ¬ m.id ∈ st.window →
        Event.markSeen m.id ∈ iterationTrace sr st.window batch)
    ∧ (∀ i j : Nat,
        ∀ (hi : i < (iterationTrace sr st.window batch).length)
          (hj : j < (iterationTrace sr st.window batch).length),
        (∃ id, (iterationTrace sr st.window batch).get ⟨i, hi⟩
            = Event.markSeen id) →
        ((∃ id, (iterationTrace sr st.window batch).get ⟨j, hj⟩
            = Event.forwardToContext id)
          ∨ (iterationTrace sr st.window batch).get ⟨j, hj⟩ = Event.respond) →
        i < j) := by
  refine ⟨processIteration_forwarded sr st batch, ?_, ?_, ?_⟩
  · intro m hm hmw
    constructor
    · rw [processIteration_forwarded]
      intro hmem
      have hflt := List.mem_filter.mp hmem
      simp only [decide_eq_true_eq] at hflt
      exact hflt.2 hmw
    · exact forward_not_mem_trace hmw
  · intro m hm hmw
    exact mark_mem_trace hm hmw
  · intro i j hi hj hmark hact
    rcases trace_shape sr st.window batch with hsh | hsh
    · exfalso
      rw [hsh] at hi
      simp at hi
    · refine marks_precede_aux hsh ?_ ?_ hi hj hmark hact
      · intro e he id hid
        rcases List.mem_append.mp he with he | he
        · rcases List.mem_map.mp he with ⟨x, _, hx⟩
          rw [hid] at hx
          exact Event.noConfusion hx
        · split at he
          · simp only [List.mem_singleton] at he
            rw [he] at hid
            exact Event.noConfusion hid
          · simp at he
      · intro e he
        rcases List.mem_map.mp he with ⟨x, _, hx⟩
        subst hx
        exact ⟨fun id h => Event.noConfusion h, fun h => Event.noConfusion h⟩

/-- Witness for C8 at a concrete window and batch. -/
theorem C8_at_most_once_reaction_witness :
    (processIteration (fun _ => true)
        { window := ["m1"], lastProcessedTimestamp := none }
        [{ id := "m1", author := "alice", message := "hello",
           authorType := "user", timestamp := "t1" },
         { id := "m2", author := "bob", message := "hey",
           authorType := "user", timestamp := "t2" }]).forwarded
      = unprocessed ["m1"]
        [{ id := "m1", author := "alice", message := "hello",
           authorType := "user", timestamp := "t1" },
         { id := "m2", author := "bob", message := "hey",
           authorType := "user", timestamp := "t2" }] :=
  (C8_at_most_once_reaction _ _ _).1

/-- C10: a nonempty poll batch consisting entirely of already-processed
message ids advances `lastProcessedTimestamp` to the last message's
timestamp and changes nothing else: the window is unchanged, nothing is
forwarded to the context manager, no response is produced, and the
iteration's event trace is empty. -/
theorem C10_duplicate_batch_frame (sr : List Msg → Bool) (st : AgentState)
    (batch : List Msg) (hne : batch ≠ [])
    (hall : ∀ m ∈ batch, m.id ∈ st.window) :
    (processIteration sr st batch).state.window = st.window
    ∧ (processIteration sr st batch).forwarded = []
    ∧ (processIteration sr st batch).responded = false
    ∧ (processIteration sr st batch).state.lastProcessedTimestamp
        = some ((batch.getLast hne).timestamp)
    ∧ iterationTrace sr st.window batch = [] := by
  have hu : unprocessed st.window batch = [] := by
    unfold unprocessed
    apply List.filter_eq_nil_iff.mpr
    intro m hm
    simpa using hall m hm
  have hbe : ¬ batch.isEmpty = true := by
    simpa [List.isEmpty_iff] using hne
  have hue : (unprocessed st.window batch).isEmpty = true := by
    simp [hu]
  constructor
  · unfold processIteration
    rw [if_neg hbe, if_pos hue]
  constructor
  · unfold processIteration
    rw [if_neg hbe, if_pos hue]
  constructor
  · unfold processIteration
    rw [if_neg hbe, if_pos hue]
  constructor
  · unfold processIteration
    rw [if_neg hbe, if_pos hue]
    simp [List.getLast?_eq_getLast _ hne]
  · unfold iterationTrace
    rw [if_neg hbe, if_pos hue]

/-- Witness for C10 at a concrete state and batch. -/
theorem C10_duplicate_batch_frame_witness :
    (processIteration (fun _ => true)
        { window := ["m1"], lastProcessedTimestamp := none }
        [{ id := "m1", author := "alice", message := "hello",
           authorType := "user", timestamp := "t1" }]).state.window = ["m1"] :=
  (C10_duplicate_batch_frame (fun _ => true)
    { window := ["m1"], lastProcessedTimestamp := none }
    [{ id := "m1", author := "alice", message := "hello",
       authorType := "user", timestamp := "t1" }]
    (by decide) (by decide)).1

/- ===================== CoordinationStore: claims =========================
The MCP tool handlers live in `fix_mcp_to_http.py`.  The in-memory store
they fall back to (`store.checkClaim`, `store.claim`, `store.releaseClaim`,
`store.listClaims` in `src/index.ts`) is not among the shown sources and is
modelled from the specification. -/

/-- A stored claim record `{what, by, since}`; `since` is a timestamp. -/
structure StoreClaim where
  what : String
  «by» : String
  since : Nat
  deriving Repr, DecidableEq

/-- Modelled from the spec: staleness is derived at read time — `stale`
becomes true once the claim's age exceeds a fixed staleness threshold
(`staleMs`, a configurable value in `src/index.ts`, not among the shown
sources). -/
def isStale (staleMs now : Nat) (c : StoreClaim) : Bool :=
  now - c.since > staleMs

/-- The claim registry state: an ordered sequence of claims, at most one
per `what`. -/
structure CoordStore where
  claims : List StoreClaim
  deriving Repr, DecidableEq

/-- Modelled from the spec: `store.checkClaim(what)` returns the current
claim if one exists (`src/index.ts`, not among the shown sources). -/
def checkClaim (s : CoordStore) (what : String) : Option StoreClaim :=
  s.claims.find? (fun c => c.what == what)

/-- Result of `store.claim`: the (created or kept) claim, or a conflict
reporting the current owner and claim time. -/
inductive StoreClaimResult where
  | ok (c : StoreClaim)
  | conflict («by» : String) (since : Nat)
  deriving Repr, DecidableEq

/-- Modelled from the spec: `store.claim(what, by, description)`
(`src/index.ts`, not among the shown sources) — if an existing non-stale
claim belongs to a different agent the operation fails with a conflict
reporting the current owner and claim time; if no claim exists or the
existing claim is stale, it installs `{what, by, since := now}` overwriting
any stale claim; re-claim by the same owner is a no-op on state but
succeeds. -/
def storeClaim (staleMs now : Nat) (s : CoordStore) (what byArg : String) :
    StoreClaimResult × CoordStore :=
  match checkClaim s what with
  | some c =>
      if c.«by» = byArg then (StoreClaimResult.ok c, s)
      else if isStale staleMs now c = true then
        (StoreClaimResult.ok ⟨what, byArg, now⟩,
          ⟨s.claims.filter (fun x => ¬ x.what = what) ++ [⟨what, byArg, now⟩]⟩)
      else (StoreClaimResult.conflict c.«by» c.since, s)
  | none =>
      (StoreClaimResult.ok ⟨what, byArg, now⟩, ⟨s.claims ++ [⟨what, byArg, now⟩]⟩)

/-- Modelled from the spec: `store.releaseClaim(what, by)` (`src/index.ts`,
not among the shown sources) removes the claim only if currently held by
`by`; otherwise it returns false without raising. -/
def releaseClaim (s : CoordStore) (what byArg : String) : Bool × CoordStore :=
  match checkClaim s what with
  | some c =>
      if c.«by» = byArg then
        (true, ⟨s.claims.filter (fun x => ¬ x.what = what)⟩)
      else (false, s)
  | none => (false, s)

/-- Modelled from the spec: `store.listClaims(includeStale)`
(`src/index.ts`, not among the shown sources) — staleness computed at read
time from `since` vs. the threshold; stale entries excluded unless
explicitly requested. -/
def listClaims (staleMs now : Nat) (s : CoordStore) (includeStale : Bool) :
    List StoreClaim :=
  if includeStale then s.claims
  else s.claims.filter (fun c => ¬ isStale staleMs now c = true)

/-- Outcome of `await fetch(...)` plus `await res.json()` as the handlers
observe it: either the whole remote call throws (network failure, timeout,
malformed body), which lands in the handler's `catch`, or it yields an HTTP
status and a parsed body. -/
inductive FetchOutcome (α : Type) where
  | transportFail
  | response (status : Nat) (data : α)
  deriving Repr, DecidableEq

/-- The fields the claim handler reads from the body of a
`POST /api/claims` response (`data.claimedBy`, `data.message`). -/
structure ClaimsPostBody where
  claimedBy : String
  message : String
  deriving Repr, DecidableEq

/-- Result payload of the MCP `claim` action, as serialized into the tool
response text. -/
inductive ClaimActionResult where
  | validationError (text : String)
  | notClaimed («by» : String) (since : Option Nat) (message : Option String)
  | claimed (what : String) («by» : String)
  deriving Repr, DecidableEq

/-- Everything observable about one run of the claim handler: the result
payload, the local store afterwards, whether the remote was called at all,
and whether the local fallback branch (the `catch`) ran. -/
structure ClaimHandlerOutcome where
  result : ClaimActionResult
  store : CoordStore
  remoteCalled : Bool
  usedFallback : Bool
  deriving Repr, DecidableEq

/-- The MCP `claim` action from `fix_mcp_to_http.py` (`new_claim`):
`if (!agentId || !args.what)` rejects with a validation message before any
backend is touched; otherwise the handler POSTs to `/api/claims`; a 409
response returns `{claimed:false, by: data.claimedBy, message}`; any other
response returns `{claimed:true, what, by}`; only when the remote call
throws does the `catch` run the local-store path: an existing non-stale
claim by a different agent yields `{claimed:false, by, since}`, otherwise
`store.claim` installs the claim and the handler reports it. -/
def claimHandler (staleMs now : Nat) (agentId what : Option String)
    (remote : FetchOutcome ClaimsPostBody) (s : CoordStore) :
    ClaimHandlerOutcome :=
  match agentId, what with
  | some aid, some w =>
      if aid = "" ∨ w = "" then
        { result := ClaimActionResult.validationError "agentId and what required"
          store := s, remoteCalled := false, usedFallback := false }
      else
        match remote with
        | FetchOutcome.response status data =>
            if status = 409 then
              { result := ClaimActionResult.notClaimed data.claimedBy none
                  (some data.message)
                store := s, remoteCalled := true, usedFallback := false }
            else
              { result := ClaimActionResult.claimed w aid
                store := s, remoteCalled := true, usedFallback := false }
        | FetchOutcome.transportFail =>
            match checkClaim s w with
            | some c =>
                if c.«by» ≠ aid ∧ isStale staleMs now c = false then
                  { result := ClaimActionResult.notClaimed c.«by» (some c.since) none
                    store := s, remoteCalled := true, usedFallback := true }
                else
                  match storeClaim staleMs now s w aid with
                  | (StoreClaimResult.ok cl, s2) =>
                      { result := ClaimActionResult.claimed cl.what cl.«by»
                        store := s2, remoteCalled := true, usedFallback := true }
                  | (StoreClaimResult.conflict b since, s2) =>
                      { result := ClaimActionResult.notClaimed b (some since) none
                        store := s2, remoteCalled := true, usedFallback := true }
            | none =>
                match storeClaim staleMs now s w aid with
                | (StoreClaimResult.ok cl, s2) =>
                    { result := ClaimActionResult.claimed cl.what cl.«by»
                      store := s2, remoteCalled := true, usedFallback := true }
                | (StoreClaimResult.conflict b since, s2) =>
                    { result := ClaimActionResult.notClaimed b (some since) none
                      store := s2, remoteCalled := true, usedFallback := true }
  | _, _ =>
      { result := ClaimActionResult.validationError "agentId and what required"
        store := s, remoteCalled := false, usedFallback := false }

/-- After overwriting the entry for `what`, looking up `what` finds exactly
the new claim. -/
theorem find_filter_append_self (l : List StoreClaim) (what : String)
    (n : StoreClaim) (hn : n.what = what) :
    ((l.filter (fun x => ¬ x.what = what)) ++ [n]).find?
        (fun c => c.what == what) = some n := by
  induction l with
  | nil => simp [List.find?, hn]
  | cons a l ih =>
      by_cases ha : a.what = what
      · simpa [List.filter_cons, ha] using ih
      · simpa [List.filter_cons, ha, List.find?_cons, beq_iff_eq] using ih

/-- C1: for the claim action, an application-level 409 from the remote
backend is returned as a conflict naming the current owner
(`data.claimedBy`), leaving the local store untouched and never running the
local fallback; the fallback branch runs only when the remote call itself
throws. -/
theorem C1_conflict_never_falls_back (staleMs now : Nat) (aid w : String)
    (data : ClaimsPostBody) (s : CoordStore)
    (ha : aid ≠ "") (hw : w ≠ "") :
    claimHandler staleMs now (some aid) (some w)
        (FetchOutcome.response 409 data) s =
      { result := ClaimActionResult.notClaimed data.claimedBy none
          (some data.message)
        store := s, remoteCalled := true, usedFallback := false }
    ∧ (∀ remote : FetchOutcome ClaimsPostBody,
        (claimHandler staleMs now (some aid) (some w) remote s).usedFallback
            = true →
        remote = FetchOutcome.transportFail) := by
  constructor
  · simp [claimHandler, ha, hw]
  · intro remote hfb
    cases remote with
    | transportFail => rfl
    | response status data2 =>
        exfalso
        by_cases h409 : status = 409
        · subst h409
          simp [claimHandler, ha, hw] at hfb
        · simp [claimHandler, ha, hw, h409] at hfb

/-- Witness for C1 at a concrete conflict response. -/
theorem C1_conflict_never_falls_back_witness :
    claimHandler 600000 5 (some "agent-X") (some "module-A")
        (FetchOutcome.response 409 { claimedBy := "agent-Y", message := "held" })
        { claims := [] } =
      { result := ClaimActionResult.notClaimed "agent-Y" none (some "held")
        store := { claims := [] }, remoteCalled := true, usedFallback := false } :=
  (C1_conflict_never_falls_back 600000 5 "agent-X" "module-A"
    { claimedBy := "agent-Y", message := "held" } { claims := [] }
    (by decide) (by decide)).1

/-- C4: while a non-stale claim by agent X exists, a claim attempt by a
different agent Y yields a conflict reporting the current owner X and the
claim time, at store level and through the handler's local fallback path,
and the store afterwards is unchanged, so the holder is never overwritten. -/
theorem C4_nonstale_conflict_preserves_holder (staleMs now : Nat)
    (s : CoordStore) (what X Y : String) (c : StoreClaim)
    (hc : checkClaim s what = some c) (hby : c.«by» = X) (hXY : X ≠ Y)
    (hstale : isStale staleMs now c = false) (hY : Y ≠ "") (hw : what ≠ "") :
    storeClaim staleMs now s what Y = (StoreClaimResult.conflict X c.since, s)
    ∧ claimHandler staleMs now (some Y) (some what)
        FetchOutcome.transportFail s =
      { result := ClaimActionResult.notClaimed X (some c.since) none
        store := s, remoteCalled := true, usedFallback := true }
    ∧ (claimHandler staleMs now (some Y) (some what)
        FetchOutcome.transportFail s).store = s := by
  have hcy : ¬ c.«by» = Y := by
    rw [hby]
    exact hXY
  refine ⟨?_, ?_, ?_⟩
  · simp [storeClaim, hc, hcy, hstale, hby, hXY]
  · simp [claimHandler, hY, hw, hc, hcy, hstale, hby, hXY]
  · simp [claimHandler, hY, hw, hc, hcy, hstale, hby, hXY]

/-- Witness for C4: agent Y tries to claim `module-A` held (non-stale) by X. -/
theorem C4_nonstale_conflict_preserves_holder_witness :
    storeClaim 600000 5 { claims := [⟨"module-A", "X", 0⟩] } "module-A" "Y"
      = (StoreClaimResult.conflict "X" 0, { claims := [⟨"module-A", "X", 0⟩] }) :=
  (C4_nonstale_conflict_preserves_holder 600000 5
    { claims := [⟨"module-A", "X", 0⟩] } "module-A" "X" "Y" ⟨"module-A", "X", 0⟩
    (by decide) (by decide) (by decide) (by decide) (by decide) (by decide)).1

/-- C5: a claim attempt succeeds and installs `{what, by, since := now}`
when no claim exists or the existing claim is stale and held by a different
agent; re-claiming by the current owner succeeds and leaves the state
unchanged; the handler's fallback path reports the installed claim. -/
theorem C5_stale_or_own_claim_succeeds (staleMs now : Nat) (s : CoordStore)
    (what byArg : String) :
    (checkClaim s what = none →
        storeClaim staleMs now s what byArg =
          (StoreClaimResult.ok ⟨what, byArg, now⟩,
            ⟨s.claims ++ [⟨what, byArg, now⟩]⟩)
        ∧ checkClaim (storeClaim staleMs now s what byArg).2 what
            = some ⟨what, byArg, now⟩)
    ∧ (∀ c, checkClaim s what = some c → isStale staleMs now c = true →
        c.«by» ≠ byArg →
        (storeClaim staleMs now s what byArg).1
            = StoreClaimResult.ok ⟨what, byArg, now⟩
        ∧ checkClaim (storeClaim staleMs now s what byArg).2 what
            = some ⟨what, byArg, now⟩)
    ∧ (∀ c, checkClaim s what = some c → c.«by» = byArg →
        storeClaim staleMs now s what byArg = (StoreClaimResult.ok c, s))
    ∧ (byArg ≠ "" → what ≠ "" →
        (checkClaim s what = none
          ∨ ∃ c, checkClaim s what = some c ∧ c.«by» = byArg) →
        (claimHandler staleMs now (some byArg) (some what)
            FetchOutcome.transportFail s).result
          = ClaimActionResult.claimed what byArg) := by
  refine ⟨?_, ?_, ?_, ?_⟩
  · intro hnone
    have heq : storeClaim staleMs now s what byArg =
        (StoreClaimResult.ok ⟨what, byArg, now⟩,
          ⟨s.claims ++ [⟨what, byArg, now⟩]⟩) := by
      simp [storeClaim, hnone]
    refine ⟨heq, ?_⟩
    rw [heq]
    unfold checkClaim at hnone ⊢
    rw [List.find?_append, hnone]
    simp [List.find?]
  · intro c hc hstale hcb
    have heq : storeClaim staleMs now s what byArg =
        (StoreClaimResult.ok ⟨what, byArg, now⟩,
          ⟨s.claims.filter (fun x => ¬ x.what = what)
            ++ [⟨what, byArg, now⟩]⟩) := by
      simp [storeClaim, hc, hcb, hstale]
    refine ⟨by rw [heq], ?_⟩
    rw [heq]
    exact find_filter_append_self s.claims what ⟨what, byArg, now⟩ rfl
  · intro c hc hcb
    simp [storeClaim, hc, hcb]
  · intro hb hw hcase
    rcases hcase with hnone | ⟨c, hc, hcb⟩
    · simp [claimHandler, hb, hw, hnone, storeClaim]
    · have hwhat : c.what = what := by
        have := List.find?_some hc
        simpa [beq_iff_eq] using this
      simp [claimHandler, hb, hw, hc, hcb, storeClaim, hwhat]

/-- Witness for C5: a fresh claim on an empty registry. -/
theorem C5_stale_or_own_claim_succeeds_witness :
    storeClaim 600000 5 { claims := [] } "module-A" "X"
      = (StoreClaimResult.ok ⟨"module-A", "X", 5⟩,
          { claims := [⟨"module-A", "X", 5⟩] })
    ∧ checkClaim (storeClaim 600000 5 { claims := [] } "module-A" "X").2
        "module-A" = some ⟨"module-A", "X", 5⟩ :=
  (C5_stale_or_own_claim_succeeds 600000 5 { claims := [] }
    "module-A" "X").1 (by decide)

/- ===================== CoordinationStore: release, locks, lists, tasks == -/

/-- Result payload of the MCP `release` action. -/
inductive ReleaseActionResult where
  | validationError (text : String)
  | released (flag : Bool) (what : String) («by» : String)
  deriving Repr, DecidableEq

/-- The field of the `DELETE /api/claims` response body
(`200 {released:bool}` per the HTTP surface). -/
structure ReleaseBody where
  released : Bool
  deriving Repr, DecidableEq

/-- Observable outcome of one run of the release handler. -/
structure ReleaseHandlerOutcome where
  result : ReleaseActionResult
  store : CoordStore
  remoteCalled : Bool
  usedFallback : Bool
  deriving Repr, DecidableEq

/-- The MCP `release` action from `fix_mcp_to_http.py` (`new_release`):
validate `agentId`/`args.what`; DELETE against the remote; the response
body is parsed into `data` but ignored — the handler returns
`{released: true, what, by}` for any remote response; only when the remote
call throws does it run `store.releaseClaim` and report its result. -/
def releaseHandler (agentId what : Option String)
    (remote : FetchOutcome ReleaseBody) (s : CoordStore) :
    ReleaseHandlerOutcome :=
  match agentId, what with
  | some aid, some w =>
      if aid = "" ∨ w = "" then
        { result := ReleaseActionResult.validationError "agentId and what required"
          store := s, remoteCalled := false, usedFallback := false }
      else
        match remote with
        | FetchOutcome.response _ _ =>
            { result := ReleaseActionResult.released true w aid
              store := s, remoteCalled := true, usedFallback := false }
        | FetchOutcome.transportFail =>
            { result := ReleaseActionResult.released (releaseClaim s w aid).1 w aid
              store := (releaseClaim s w aid).2
              remoteCalled := true, usedFallback := true }
  | _, _ =>
      { result := ReleaseActionResult.validationError "agentId and what required"
        store := s, remoteCalled := false, usedFallback := false }

/-- C3 counterexample circumstances, evaluated concretely: the registry
release itself is a benign no-op for a non-owner and removes the claim for
the owner, but on the remote path the handler discards the backend's
`{released:false}` and reports `released: true` to the caller. -/
theorem C3_remote_release_misreports :
    (releaseClaim { claims := [⟨"module-A", "X", 0⟩] } "module-A" "Y")
      = (false, { claims := [⟨"module-A", "X", 0⟩] })
    ∧ (releaseClaim { claims := [⟨"module-A", "X", 0⟩] } "module-A" "X")
      = (true, { claims := [] })
    ∧ (releaseHandler (some "Y") (some "module-A")
        (FetchOutcome.response 200 { released := false })
        { claims := [⟨"module-A", "X", 0⟩] }).result
      = ReleaseActionResult.released true "module-A" "Y" := by
  decide

/-- A lock record. -/
structure Lock where
  resourcePath : String
  lockedBy : String
  resourceType : String
  reason : Option String
  acquiredAt : Nat
  deriving Repr, DecidableEq

/-- The lock registry state: at most one lock per `resourcePath`. -/
structure LockStore where
  locks : List Lock
  deriving Repr, DecidableEq

/-- Result of `store.acquireLock`: the created lock, or an error naming the
current holder. -/
inductive AcquireResult where
  | ok (l : Lock)
  | lockHeld (currentHolder : String)
  deriving Repr, DecidableEq

/-- Modelled from the spec: `store.acquireLock(resourcePath, lockedBy,
resourceType, reason)` (`src/index.ts`, not among the shown sources) —
unconditional exclusivity with no staleness escape hatch: if a lock for the
path exists, the result carries an error naming the current holder,
otherwise the lock is created. -/
def acquireLock (s : LockStore) (resourcePath lockedBy resourceType : String)
    (reason : Option String) (now : Nat) : AcquireResult × LockStore :=
  match s.locks.find? (fun l => l.resourcePath == resourcePath) with
  | some l => (AcquireResult.lockHeld l.lockedBy, s)
  | none =>
      (AcquireResult.ok ⟨resourcePath, lockedBy, resourceType, reason, now⟩,
        ⟨s.locks ++ [⟨resourcePath, lockedBy, resourceType, reason, now⟩]⟩)

/-- The fields the lock handler reads from the body of a
`POST /api/locks` response: `data.lock` (absent when the server answered
`409 {error}`). -/
structure LocksPostBody where
  lock : Option Lock
  error : Option String
  deriving Repr, DecidableEq

/-- Result payload of the MCP `lock` action. -/
inductive LockActionResult where
  | success (lock : Option Lock)
  | failure (currentHolder : String)
  deriving Repr, DecidableEq

/-- Observable outcome of one run of the lock handler. -/
structure LockHandlerOutcome where
  result : LockActionResult
  store : LockStore
  usedFallback : Bool
  deriving Repr, DecidableEq

/-- The MCP `lock` action from `fix_mcp_to_http.py` (`new_lock`): POST to
`/api/locks` and return `{success: true, lock: data.lock}` for ANY
response — the handler never checks `res.status`, so a `409 {error}` also
comes back as success (with `data.lock` absent); only when the remote call
throws does it run `store.acquireLock` and report `success:false` with the
error, or the created lock. -/
def lockHandler (resourcePath agentId : String)
    (resourceType reason : Option String) (now : Nat)
    (remote : FetchOutcome LocksPostBody) (s : LockStore) :
    LockHandlerOutcome :=
  match remote with
  | FetchOutcome.response _ data =>
      { result := LockActionResult.success data.lock
        store := s, usedFallback := false }
  | FetchOutcome.transportFail =>
      match acquireLock s resourcePath agentId
          (resourceType.getD "file-lock") reason now with
      | (AcquireResult.lockHeld holder, s2) =>
          { result := LockActionResult.failure holder
            store := s2, usedFallback := true }
      | (AcquireResult.ok l, s2) =>
          { result := LockActionResult.success (some l)
            store := s2, usedFallback := true }

/-- C2 counterexample circumstances, evaluated concretely: the registry's
exclusivity holds (a second acquire on a held path reports the current
holder), but when the remote backend answers `409 {error}` the handler
reports `{success: true}` with no lock instead of a failure naming the
holder — the conflict is not surfaced as a failure result. -/
theorem C2_remote_lock_conflict_reported_as_success :
    (acquireLock { locks := [⟨"src/file.go", "agent-B", "file-lock", none, 0⟩] }
        "src/file.go" "agent-A" "file-lock" none 5).1
      = AcquireResult.lockHeld "agent-B"
    ∧ (lockHandler "src/file.go" "agent-A" none none 5
        (FetchOutcome.response 409
          { lock := none, error := some "Resource locked by agent-B" })
        { locks := [⟨"src/file.go", "agent-B", "file-lock", none, 0⟩] }).result
      = LockActionResult.success none := by
  decide

/-- The JSON body of a claims listing: `{claims, count}`. -/
structure ClaimsListData where
  claims : List StoreClaim
  count : Nat
  deriving Repr, DecidableEq

/-- Modelled from the spec: the remote `GET /api/claims?includeStale=bool`
endpoint (not among the shown sources) serves `listClaims` over the remote
store; an absent `includeStale` parameter defaults to false. -/
def remoteClaimsListing (staleMs now : Nat) (rs : CoordStore)
    (includeStale : Bool) : ClaimsListData :=
  ⟨listClaims staleMs now rs includeStale,
    (listClaims staleMs now rs includeStale).length⟩

/-- The MCP `list-claims` action from `fix_mcp_to_http.py`
(`new_list_claims`): it fetches `${API_BASE}/api/claims` — with NO
`includeStale` query parameter — and returns the remote body verbatim; only
when the remote call throws does it serve
`store.listClaims(args.includeStale)` from the local store.  A remote store
of `none` models the fetch throwing. -/
def listClaimsHandler (includeStale : Bool) (staleMs now : Nat)
    (remoteStore : Option CoordStore) (s : CoordStore) : ClaimsListData :=
  match remoteStore with
  | some rs => remoteClaimsListing staleMs now rs false
  | none =>
      ⟨listClaims staleMs now s includeStale,
        (listClaims staleMs now s includeStale).length⟩

/-- C6 counterexample: with `includeStale` explicitly set, the remote path
of list-claims still omits the (stale) claim, because the handler's fetch
carries no `includeStale` query parameter — the claim as stated fails for
the remote path. -/
theorem C6_remote_path_drops_includeStale :
    isStale 1000 5000 ⟨"module-A", "X", 0⟩ = true
    ∧ (listClaimsHandler true 1000 5000
        (some { claims := [⟨"module-A", "X", 0⟩] }) { claims := [] }).claims
      = [] := by
  decide

/-- C6 amended: the local fallback path of list-claims computes staleness
at read time and includes a claim exactly when it is non-stale or
`includeStale` is set; the remote path forwards the remote listing
evaluated with `includeStale = false` regardless of the argument. -/
theorem C6_list_claims_staleness_filter (staleMs now : Nat)
    (s rs : CoordStore) (inc : Bool) :
    listClaimsHandler inc staleMs now none s
      = ⟨listClaims staleMs now s inc, (listClaims staleMs now s inc).length⟩
    ∧ listClaimsHandler inc staleMs now (some rs) s
      = ⟨listClaims staleMs now rs false,
          (listClaims staleMs now rs false).length⟩
    ∧ (∀ c, c ∈ listClaims staleMs now s inc ↔
        (c ∈ s.claims ∧ (inc = true ∨ isStale staleMs now c = false))) := by
  refine ⟨rfl, rfl, ?_⟩
  intro c
  unfold listClaims
  cases inc with
  | true => simp
  | false =>
      simp only [Bool.false_eq_true, if_false, List.mem_filter,
        decide_eq_true_eq, false_or]
      constructor
      · rintro ⟨hm, hns⟩
        exact ⟨hm, by simpa using hns⟩
      · rintro ⟨hm, hns⟩
        exact ⟨hm, by simpa using hns⟩

/-- Witness for the amended C6 at a concrete store. -/
theorem C6_list_claims_staleness_filter_witness :
    listClaimsHandler true 1000 5000 none
        { claims := [⟨"module-A", "X", 0⟩] }
      = ⟨listClaims 1000 5000 { claims := [⟨"module-A", "X", 0⟩] } true,
          (listClaims 1000 5000 { claims := [⟨"module-A", "X", 0⟩] } true).length⟩ :=
  (C6_list_claims_staleness_filter 1000 5000
    { claims := [⟨"module-A", "X", 0⟩] } { claims := [] } true).1

/-- A task record. -/
structure CoordTask where
  id : String
  title : String
  description : Option String
  priority : String
  status : String
  createdBy : String
  assignee : Option String
  tags : List String
  deriving Repr, DecidableEq

/-- The task registry state. -/
structure TaskStore where
  tasks : List CoordTask
  nextId : Nat
  deriving Repr, DecidableEq

/-- The fields the task handler sends to `store.createTask` (and in the
POST body): the patched call fills `priority || 'medium'`, `status:'todo'`
and `tags || []`. -/
structure TaskCreateBody where
  title : String
  description : Option String
  priority : String
  status : String
  createdBy : String
  assignee : Option String
  tags : List String
  deriving Repr, DecidableEq

/-- Modelled from the spec: `store.createTask(...)` (`src/index.ts`, not
among the shown sources) assigns a new unique id and stores the task. -/
def createTask (s : TaskStore) (b : TaskCreateBody) : CoordTask × TaskStore :=
  let t : CoordTask := ⟨"task-" ++ toString s.nextId, b.title, b.description,
    b.priority, b.status, b.createdBy, b.assignee, b.tags⟩
  (t, ⟨s.tasks ++ [t], s.nextId + 1⟩)

/-- The body the handler reads from a `POST /api/tasks` response:
`data.task`. -/
structure TaskPostBody where
  task : Option CoordTask
  deriving Repr, DecidableEq

/-- Result payload of the MCP task `create` action. -/
inductive TaskCreateResult where
  | validationError (text : String)
  | created (task : Option CoordTask)
  deriving Repr, DecidableEq

/-- Observable outcome of one run of the task-create handler. -/
structure TaskHandlerOutcome where
  result : TaskCreateResult
  store : TaskStore
  remoteCalled : Bool
  usedFallback : Bool
  deriving Repr, DecidableEq

/-- The MCP task `create` action from `fix_mcp_to_http.py`
(`new_task_create`): `if (!args.title || !args.createdBy)` rejects with a
validation message before any backend is touched; otherwise POST to
`/api/tasks` with `priority || 'medium'`, `status:'todo'`, `tags || []`,
returning `{created:true, task: data.task}`; only when the remote call
throws does it run `store.createTask` with the same body. -/
def taskCreateHandler (title description priority createdBy assignee :
    Option String) (tags : Option (List String))
    (remote : FetchOutcome TaskPostBody) (s : TaskStore) :
    TaskHandlerOutcome :=
  match title, createdBy with
  | some t, some cb =>
      if t = "" ∨ cb = "" then
        { result := TaskCreateResult.validationError "title and createdBy required"
          store := s, remoteCalled := false, usedFallback := false }
      else
        match remote with
        | FetchOutcome.response _ data =>
            { result := TaskCreateResult.created data.task
              store := s, remoteCalled := true, usedFallback := false }
        | FetchOutcome.transportFail =>
            { result := TaskCreateResult.created
                (some (createTask s ⟨t, description, priority.getD "medium",
                  "todo", cb, assignee, tags.getD []⟩).1)
              store := (createTask s ⟨t, description, priority.getD "medium",
                "todo", cb, assignee, tags.getD []⟩).2
              remoteCalled := true, usedFallback := true }
  | _, _ =>
      { result := TaskCreateResult.validationError "title and createdBy required"
        store := s, remoteCalled := false, usedFallback := false }

/-- JavaScript truthiness of an optional string argument: an absent
argument and the empty string are both falsy (`!agentId`, `!args.title`). -/
def truthy : Option String → Bool
  | none => false
  | some s => !(s == "")

/-- C9: an operation with a missing required field — claim without
`agentId`/`what`, task create without `title`/`createdBy` — returns the
descriptive validation message with no remote call made, no fallback run,
and the backend store unchanged, whatever the remote would have answered. -/
theorem C9_validation_before_any_backend :
    (∀ (staleMs now : Nat) (agentId what : Option String)
        (remote : FetchOutcome ClaimsPostBody) (s : CoordStore),
        truthy agentId = false ∨ truthy what = false →
        claimHandler staleMs now agentId what remote s =
          { result := ClaimActionResult.validationError
              "agentId and what required"
            store := s, remoteCalled := false, usedFallback := false })
    ∧ (∀ (title description priority createdBy assignee : Option String)
        (tags : Option (List String)) (remote : FetchOutcome TaskPostBody)
        (s : TaskStore),
        truthy title = false ∨ truthy createdBy = false →
        taskCreateHandler title description priority createdBy assignee tags
            remote s =
          { result := TaskCreateResult.validationError
              "title and createdBy required"
            store := s, remoteCalled := false, usedFallback := false }) := by
  constructor
  · intro staleMs now agentId what remote s hmiss
    match agentId, what with
    | none, _ => rfl
    | some aid, none => rfl
    | some aid, some w =>
        have hcond : aid = "" ∨ w = "" := by
          rcases hmiss with h | h <;> simp [truthy] at h <;> [left; right] <;>
            exact h
        simp [claimHandler, hcond]
  · intro title description priority createdBy assignee tags remote s hmiss
    match title, createdBy with
    | none, _ => rfl
    | some t, none => rfl
    | some t, some cb =>
        have hcond : t = "" ∨ cb = "" := by
          rcases hmiss with h | h <;> simp [truthy] at h <;> [left; right] <;>
            exact h
        simp [taskCreateHandler, hcond]

/-- Witness for C9: a claim attempt with no `agentId`. -/
theorem C9_validation_before_any_backend_witness :
    claimHandler 600000 5 none (some "module-A")
        (FetchOutcome.response 409 { claimedBy := "Y", message := "held" })
        { claims := [] } =
      { result := ClaimActionResult.validationError "agentId and what required"
        store := { claims := [] }
        remoteCalled := false, usedFallback := false } :=
  C9_validation_before_any_backend.1 600000 5 none (some "module-A")
    (FetchOutcome.response 409 { claimedBy := "Y", message := "held" })
    { claims := [] } (by decide)
